import Mathlib

set_option linter.unusedVariables false

/-!
# Verification of the solana-wallet-tracker core

Shallow embedding of the swap-classification / alert pipeline
(`bot/webhook_server.py`), the persistence interface (`bot/database.py`),
the Helius webhook-registration adapter and holder aggregator
(`bot/helius_client.py`), and the amount utilities (`bot/solana_utils.py`).

Conventions of the embedding:
* Python `None`-able string fields become `Option String`; Python truthiness
  of strings (`None` and `""` are falsy) is made explicit where the source
  tests it.
* Numeric amounts become `ℚ` (payload token amounts, prices) and `ℤ`
  (raw lamport / raw token integers); division is exact rational division.
* The sqlite store becomes an explicit `DbState` value threaded through the
  pipeline; `UNIQUE` on `transactions.signature` becomes the membership test
  performed by `Database.add_transaction`.
* Remote HTTP collaborators (token metadata, price, Telegram send, Helius
  REST) become oracle functions carried in an environment record; the
  webhook adapter additionally records the remote calls it issues as a
  trace, so that "what was pushed to the remote service" is observable.
-/

namespace WalletTracker

/-- Constant `SOL_MINT` from `bot/solana_utils.py`: the native-SOL sentinel mint. -/
def SOL_MINT : String := "So11111111111111111111111111111111111111112"

/-- Function `calculate_token_amount` from `bot/solana_utils.py`:
`raw_amount / (10 ** decimals)` as exact rational division. -/
def calculate_token_amount (raw_amount : ℤ) (decimals : ℕ) : ℚ :=
  (raw_amount : ℚ) / (10 : ℚ) ^ decimals

/-- One entry of the `tokenTransfers` array of a Helius enhanced transaction. -/
structure TokenTransfer where
  mint : Option String
  fromUserAccount : Option String
  toUserAccount : Option String
  tokenAmount : ℚ
deriving DecidableEq, Repr

/-- One entry of the `nativeTransfers` array. -/
structure NativeTransfer where
  fromUserAccount : Option String
  toUserAccount : Option String
  amount : ℤ
deriving DecidableEq, Repr

/-- The dict returned by `analyze_swap` (keys `type`, `token_address`,
`amount`, `raw_amount`). -/
structure SwapInfo where
  type : String
  token_address : Option String
  amount : ℚ
  raw_amount : Option ℤ
deriving DecidableEq, Repr

/-- The `tokens_sent` list built by the first loop of `analyze_swap`:
transfers whose `fromUserAccount` equals the wallet.  The loop's
`if from_addr == wallet_address` branch has priority over the `elif`. -/
def tokens_sent (wallet_address : String) (token_transfers : List TokenTransfer) :
    List TokenTransfer :=
  token_transfers.filter (fun t => t.fromUserAccount == some wallet_address)

/-- The `tokens_received` list built by the first loop of `analyze_swap`:
because the receive case is an `elif`, a transfer counts as received only
when its `fromUserAccount` is NOT the wallet and its `toUserAccount` is. -/
def tokens_received (wallet_address : String) (token_transfers : List TokenTransfer) :
    List TokenTransfer :=
  token_transfers.filter
    (fun t => !(t.fromUserAccount == some wallet_address) &&
      t.toUserAccount == some wallet_address)

/-- Accumulator `sol_sent` built by the native loop of `analyze_swap`. -/
def sol_sent (wallet_address : String) (native_transfers : List NativeTransfer) : ℤ :=
  (native_transfers.filter (fun t => t.fromUserAccount == some wallet_address)).foldl
    (fun acc t => acc + t.amount) 0

/-- Accumulator `sol_received` built by the native loop of `analyze_swap`; again the
`elif` gives the sent case priority. -/
def sol_received (wallet_address : String) (native_transfers : List NativeTransfer) : ℤ :=
  (native_transfers.filter
      (fun t => !(t.fromUserAccount == some wallet_address) &&
        t.toUserAccount == some wallet_address)).foldl
    (fun acc t => acc + t.amount) 0

/-- Function `analyze_swap` from `bot/webhook_server.py`.  Rule order is exactly the
source's: first non-SOL received transfer → buy; else first non-SOL sent
transfer → sell; else the net-native-flow fallback; else `None`. -/
def analyze_swap (wallet_address : String) (token_transfers : List TokenTransfer)
    (native_transfers : List NativeTransfer) : Option SwapInfo :=
  match (tokens_received wallet_address token_transfers).find?
      (fun t => !(t.mint == some SOL_MINT)) with
  | some t => some ⟨"buy", t.mint, t.tokenAmount, none⟩
  | none =>
    match (tokens_sent wallet_address token_transfers).find?
        (fun t => !(t.mint == some SOL_MINT)) with
    | some t => some ⟨"sell", t.mint, t.tokenAmount, none⟩
    | none =>
      if sol_received wallet_address native_transfers >
          sol_sent wallet_address native_transfers then
        match tokens_sent wallet_address token_transfers with
        | t :: _ => some ⟨"sell", t.mint, t.tokenAmount, none⟩
        | [] => none
      else if sol_sent wallet_address native_transfers >
          sol_received wallet_address native_transfers then
        match tokens_received wallet_address token_transfers with
        | t :: _ => some ⟨"buy", t.mint, t.tokenAmount, none⟩
        | [] => none
      else none

/-! ## Persistence layer (`bot/database.py`) -/

/-- A row of the `wallets` table (fields the pipeline reads). -/
structure WalletRec where
  address : String
  name : String
deriving DecidableEq, Repr

/-- A row of the `transactions` table. -/
structure TransactionRec where
  wallet_address : String
  signature : String
  tx_type : String
  token_address : Option String
  token_symbol : String
  amount : ℚ
  usd_value : Option ℚ
deriving DecidableEq, Repr

/-- The sqlite store as a value: the two tables the pipeline touches. -/
structure DbState where
  wallets : List WalletRec
  transactions : List TransactionRec
deriving DecidableEq, Repr

namespace Database

/-- Method `Database.get_wallet`: `SELECT * FROM wallets WHERE address = ?`.
A `NULL` address (Python `None`) matches no row. -/
def get_wallet (st : DbState) (address : Option String) : Option WalletRec :=
  match address with
  | none => none
  | some a => st.wallets.find? (fun w => w.address == a)

/-- Method `Database.transaction_exists`:
`SELECT 1 FROM transactions WHERE signature = ?` is non-empty. -/
def transaction_exists (st : DbState) (signature : String) : Bool :=
  st.transactions.any (fun r => r.signature == signature)

/-- Method `Database.add_transaction`: the `INSERT` succeeds unless the
`UNIQUE NOT NULL` constraint on `signature` fires (`IntegrityError`),
in which case the store is unchanged and `False` is returned. -/
def add_transaction (st : DbState) (r : TransactionRec) : DbState × Bool :=
  if transaction_exists st r.signature then (st, false)
  else ({ st with transactions := st.transactions ++ [r] }, true)

end Database

/-! ## Ingestion pipeline (`bot/webhook_server.py`) -/

/-- One entry of a transaction's `accountData` array. -/
structure AccountData where
  account : Option String
deriving DecidableEq, Repr

/-- The fields of a Helius enhanced-transaction object the pipeline reads. -/
structure Tx where
  signature : Option String
  type : Option String
  feePayer : Option String
  accountData : List AccountData
  tokenTransfers : List TokenTransfer
  nativeTransfers : List NativeTransfer
deriving DecidableEq, Repr

/-- Dataclass `TokenInfo` from `bot/solana_utils.py` (the fields the pipeline uses). -/
structure TokenInfo where
  address : Option String
  symbol : String
  name : String
  decimals : ℕ
  logo_uri : Option String
deriving DecidableEq, Repr

/-- The data handed to `format_buy_alert` / `format_sell_alert` and then to
`send_alert`; string rendering of the message is out of scope, so an alert
is recorded as the formatter's arguments plus which formatter ran. -/
structure Alert where
  kind : String
  wallet_name : String
  wallet_address : String
  token_symbol : String
  token_address : Option String
  amount : ℚ
  usd_value : Option ℚ
  signature : Option String
deriving DecidableEq, Repr

/-- Remote collaborators of the pipeline as oracles: `get_token_info` and
`get_token_price` (both already catch their own errors in the source and
return `None` on failure), and `send_alert`, whose oracle returns `false`
when the Telegram send raises. -/
structure Env where
  get_token_info : Option String → Option TokenInfo
  get_token_price : Option String → Option ℚ
  send_ok : Alert → Bool

/-- The account-scan loop of `process_swap_transaction`: walk `accountData`,
skip falsy account fields, and adopt the first address the Wallet Store
knows; the source overwrites `wallet` on every truthy lookup but only
breaks on a hit, so the first tracked address wins. -/
def scan_accounts (st : DbState) : List AccountData → Option (String × WalletRec)
  | [] => none
  | a :: rest =>
    match a.account with
    | none => scan_accounts st rest
    | some addr =>
      if addr == "" then scan_accounts st rest
      else
        match Database.get_wallet st (some addr) with
        | some w => some (addr, w)
        | none => scan_accounts st rest

/-- What one call of `process_swap_transaction` did: the store afterwards,
the alerts actually delivered, the result of `db.add_transaction` when the
insert was reached, and whether an exception escaped the function (only the
`send_alert` collaborator can raise in this embedding). -/
structure SwapOutcome where
  db : DbState
  alerts : List Alert
  inserted : Option Bool
  raised : Bool
deriving DecidableEq, Repr

/-- Function `process_swap_transaction` from `bot/webhook_server.py`, step by step:
wallet-ownership match (fee payer, else account scan), `analyze_swap`,
token-metadata defaults (`"UNKNOWN"` / 9), raw-amount conversion (guarded by
Python truthiness, so a raw amount of 0 is not converted), best-effort USD
value (a price of 0 is falsy and drops the USD value), `db.add_transaction`
— whose boolean result the source ignores — and the alert send.
The source only calls this after `process_transaction`'s truthiness guard on
`signature`, so the record stores `tx.signature.getD ""`. -/
def process_swap_transaction (env : Env) (st : DbState) (tx : Tx) : SwapOutcome :=
  let found : Option (String × WalletRec) :=
    match tx.feePayer with
    | none => scan_accounts st tx.accountData
    | some a =>
      match Database.get_wallet st (some a) with
      | some w => some (a, w)
      | none => scan_accounts st tx.accountData
  match found with
  | none => ⟨st, [], none, false⟩
  | some (fee_payer, wallet) =>
    match analyze_swap fee_payer tx.tokenTransfers tx.nativeTransfers with
    | none => ⟨st, [], none, false⟩
    | some info =>
      let token_info := env.get_token_info info.token_address
      let token_symbol := match token_info with | some ti => ti.symbol | none => "UNKNOWN"
      let decimals := match token_info with | some ti => ti.decimals | none => 9
      let amount :=
        match info.raw_amount with
        | some r => if r ≠ 0 then calculate_token_amount r decimals else info.amount
        | none => info.amount
      let usd_value :=
        match env.get_token_price info.token_address with
        | some p => if p ≠ 0 then some (amount * p) else none
        | none => none
      let ins := Database.add_transaction st
        ⟨fee_payer, tx.signature.getD "", info.type, info.token_address,
          token_symbol, amount, usd_value⟩
      let alert : Alert :=
        ⟨if info.type == "buy" then "buy" else "sell", wallet.name, fee_payer,
          token_symbol, info.token_address, amount, usd_value, tx.signature⟩
      if env.send_ok alert then ⟨ins.1, [alert], some ins.2, false⟩
      else ⟨ins.1, [], some ins.2, true⟩

/-- The observable world of the ingestion server: the store plus the log of
every alert delivered so far. -/
structure World where
  db : DbState
  alerts : List Alert
deriving DecidableEq, Repr

/-- Function `process_transaction` from `bot/webhook_server.py`: guard on a truthy
`signature`, drop already-processed signatures, drop non-`SWAP` types, then
run `process_swap_transaction` inside `try/except` — an exception escaping
it is caught and logged, keeping whatever effects had already happened. -/
def process_transaction (env : Env) (w : World) (tx : Tx) : World :=
  match tx.signature with
  | none => w
  | some s =>
    if s == "" then w
    else if Database.transaction_exists w.db s then w
    else if !(tx.type == some "SWAP") then w
    else
      let o := process_swap_transaction env w.db tx
      ⟨o.db, w.alerts ++ o.alerts⟩

/-- Endpoint `helius_webhook` from `bot/webhook_server.py`, after the single-object
payload has been wrapped into a one-element array: process every item in
order and answer `{"status": "ok"}`. -/
def helius_webhook (env : Env) (w : World) (payload : List Tx) : World × String :=
  (payload.foldl (process_transaction env) w, "ok")

/-! ## Webhook registration adapter (`bot/helius_client.py`) -/

/-- The placeholder pushed in place of an empty address list. -/
def PLACEHOLDER_ADDRESS : String := "11111111111111111111111111111111"

/-- A remote call issued by the adapter, with the address payload it
carried, so "what was sent to Helius" is observable. -/
inductive RemoteCall where
  | listWebhooks : RemoteCall
  | createWebhook : List String → RemoteCall
  | updateWebhook : String → List String → RemoteCall
deriving DecidableEq, Repr

/-- The address list carried by a remote call, if any. -/
def RemoteCall.addresses : RemoteCall → Option (List String)
  | .listWebhooks => none
  | .createWebhook a => some a
  | .updateWebhook _ a => some a

/-- One webhook object returned by the Helius `GET /webhooks` listing. -/
structure RemoteWebhook where
  webhookID : Option String
  webhookURL : Option String
deriving DecidableEq, Repr

/-- The remote Helius service as an oracle: the current listing, the id a
`POST /webhooks` would answer (`none` = HTTP failure), and whether a
`PUT /webhooks/{id}` succeeds. -/
structure HeliusEnv where
  webhooks : List RemoteWebhook
  create_result : Option String
  update_ok : Bool

/-- The `accountAddresses` field `_create_webhook` puts in its payload:
the placeholder is substituted for a falsy (empty) list. -/
def create_webhook_addresses (wallet_addresses : List String) : List String :=
  if wallet_addresses.isEmpty then [PLACEHOLDER_ADDRESS] else wallet_addresses

/-- Method `HeliusClient._create_webhook`: issues the `POST` (so the call is traced
even when the remote answers an error) and returns the new id, if any. -/
def create_webhook (env : HeliusEnv) (wallet_addresses : List String) :
    Option String × List RemoteCall :=
  (env.create_result, [RemoteCall.createWebhook (create_webhook_addresses wallet_addresses)])

/-- Method `HeliusClient.update_webhook`: issues the `PUT` with the addresses
verbatim and reports success as a boolean. -/
def update_webhook (env : HeliusEnv) (webhook_id : String) (wallet_addresses : List String) :
    Bool × List RemoteCall :=
  (env.update_ok, [RemoteCall.updateWebhook webhook_id wallet_addresses])

/-- Method `HeliusClient.get_or_create_shared_webhook` over the module-level cache
`_shared_webhook_id`: answer the cache if truthy; otherwise list the
remote webhooks and adopt the first whose URL ends in `"/helius"`;
otherwise create a fresh webhook with an empty address list.
Returns (new cache, returned id, trace of remote calls). -/
def get_or_create_shared_webhook (env : HeliusEnv) (cached : Option String) :
    Option String × Option String × List RemoteCall :=
  match cached with
  | some id => (some id, some id, [])
  | none =>
    match env.webhooks.find? (fun wh => (wh.webhookURL.getD "").endsWith "/helius") with
    | some wh => (wh.webhookID, wh.webhookID, [RemoteCall.listWebhooks])
    | none =>
      let c := create_webhook env []
      match c.1 with
      | some id => (some id, some id, RemoteCall.listWebhooks :: c.2)
      | none => (none, none, RemoteCall.listWebhooks :: c.2)

/-- Method `HeliusClient.add_wallet_to_webhook`: resolve the shared webhook id
(rediscovering or creating it when the cache is empty), then push the full
address list as a replace-style update.  The `wallet_address` parameter is
unused in the source beyond documentation. -/
def add_wallet_to_webhook (env : HeliusEnv) (cached : Option String)
    (_wallet_address : String) (all_addresses : List String) :
    Option String × Bool × List RemoteCall :=
  let g := get_or_create_shared_webhook env cached
  match g.2.1 with
  | none => (g.1, false, g.2.2)
  | some id =>
    let u := update_webhook env id all_addresses
    (g.1, u.1, g.2.2 ++ u.2)

/-- Method `HeliusClient.remove_wallet_from_webhook`: with no cached id it answers
`True` without any remote call ("No webhook to update"); otherwise it pushes
the remaining addresses, substituting the placeholder for an empty list. -/
def remove_wallet_from_webhook (env : HeliusEnv) (cached : Option String)
    (remaining_addresses : List String) : Option String × Bool × List RemoteCall :=
  match cached with
  | none => (none, true, [])
  | some id =>
    let remaining :=
      if remaining_addresses.isEmpty then [PLACEHOLDER_ADDRESS] else remaining_addresses
    let u := update_webhook env id remaining
    (some id, u.1, u.2)

/-! ## Holder aggregator (`bot/helius_client.py`) -/

/-- One balance entry as returned by `get_wallet_balances` (already filtered
there to truthy mints and positive raw amounts). -/
structure RawBalance where
  mint : Option String
  amount : ℤ
  decimals : ℕ
deriving DecidableEq, Repr

/-- A tracked wallet as handed to `get_token_holders`. -/
structure WalletEntry where
  address : String
  name : String
deriving DecidableEq, Repr

/-- The `TokenBalance` dataclass of `bot/helius_client.py`. -/
structure TokenBalance where
  wallet_address : String
  wallet_name : String
  mint : String
  amount : ℚ
  decimals : ℕ
deriving DecidableEq, Repr

/-- The inner `check_wallet` coroutine of `get_token_holders`: fetch the
wallet's balances (the oracle's `Except.error` models the coroutine
raising), return the first balance whose mint matches, converted to a
human-readable amount, or `none` if the wallet does not hold the token. -/
def check_wallet (fetch : String → Except Unit (List RawBalance)) (token_mint : String)
    (w : WalletEntry) : Except Unit (Option TokenBalance) :=
  match fetch w.address with
  | .error e => .error e
  | .ok balances =>
    .ok ((balances.find? (fun b => b.mint == some token_mint)).map (fun b =>
      ⟨w.address, w.name, token_mint, (b.amount : ℚ) / (10 : ℚ) ^ b.decimals, b.decimals⟩))

/-- The `holders` list before sorting: `asyncio.gather` keeps the task-start
(input wallet) order, and the collection loop keeps `TokenBalance` results
while dropping `None`s and captured exceptions. -/
def collect_holders (fetch : String → Except Unit (List RawBalance)) (token_mint : String)
    (wallets : List WalletEntry) : List TokenBalance :=
  (wallets.map (check_wallet fetch token_mint)).filterMap (fun r =>
    match r with
    | .ok (some tb) => some tb
    | _ => none)

/-- Stable insertion for a descending sort: the element being inserted came
earlier in the input than everything already in the list, so it goes in
front of any entry of equal or smaller amount. -/
def insert_desc (x : TokenBalance) : List TokenBalance → List TokenBalance
  | [] => [x]
  | y :: ys => if y.amount ≤ x.amount then x :: y :: ys else y :: insert_desc x ys

/-- Embedding of `holders.sort(key=lambda x: x.amount, reverse=True)`: Python's sort is
documented stable, and for the total preorder "by amount, descending" the
stable result is unique, so it is embedded as stable insertion sort. -/
def sort_desc : List TokenBalance → List TokenBalance
  | [] => []
  | x :: xs => insert_desc x (sort_desc xs)

/-- Method `HeliusClient.get_token_holders`: fan out `check_wallet` over the
wallets, collect the successful hits in task order, and sort by amount
descending. -/
def get_token_holders (fetch : String → Except Unit (List RawBalance)) (token_mint : String)
    (wallets : List WalletEntry) : List TokenBalance :=
  sort_desc (collect_holders fetch token_mint wallets)

/-! ## Concrete sample inputs used to instantiate the theorems -/

/-- Collaborator oracles where metadata and price lookups fail (the pipeline
must default) and the alert send succeeds. -/
def envOk : Env := ⟨fun _ => none, fun _ => none, fun _ => true⟩

/-- Collaborator oracles where the alert send raises. -/
def envSendFails : Env := ⟨fun _ => none, fun _ => none, fun _ => false⟩

/-- A stored record for signature `"sig1"`, as the concurrent duplicate
delivery would have inserted it. -/
def sigRecord : TransactionRec := ⟨"w1", "sig1", "buy", some "X", "UNKNOWN", 5, none⟩

/-- Store tracking wallet `"w1"` with signature `"sig1"` already recorded. -/
def conflictDb : DbState := ⟨[⟨"w1", "Alice"⟩], [sigRecord]⟩

/-- Store tracking wallet `"w1"` with no transactions yet. -/
def freshDb : DbState := ⟨[⟨"w1", "Alice"⟩], []⟩

/-- A swap notification for signature `"sig1"`: tracked wallet `"w1"`
receives 5 of token `"X"`. -/
def swapTx : Tx := ⟨some "sig1", some "SWAP", some "w1", [],
  [⟨some "X", some "o", some "w1", 5⟩], []⟩

/-- A second, independent swap notification (signature `"sig2"`). -/
def otherTx : Tx := ⟨some "sig2", some "SWAP", some "w1", [],
  [⟨some "Y", some "o", some "w1", 3⟩], []⟩

/-- A balance oracle: wallet `"w2"`'s lookup raises, every other wallet
holds token `"M"` (7 raw units for `"w3"`, 5 for the rest). -/
def fetch0 : String → Except Unit (List RawBalance) := fun a =>
  if a == "w2" then .error ()
  else if a == "w3" then .ok [⟨some "M", 7, 0⟩]
  else .ok [⟨some "M", 5, 0⟩]

/-- Three tracked wallets, one of which (`"w2"`) has a failing lookup. -/
def wallets0 : List WalletEntry := [⟨"w1", "n1"⟩, ⟨"w2", "n2"⟩, ⟨"w3", "n3"⟩]

/-! ## Theorems -/

/-- C8: `calculate_token_amount(raw, decimals)` is exactly `raw / 10^decimals`
(the division is exact: multiplying back by `10^decimals` recovers `raw`),
and in particular `calculate_token_amount 1500000 6 = 1.5`. -/
theorem calculate_token_amount_exact :
    (∀ (raw : ℤ) (d : ℕ), calculate_token_amount raw d = (raw : ℚ) / (10 : ℚ) ^ d) ∧
    (∀ (raw : ℤ) (d : ℕ), calculate_token_amount raw d * (10 : ℚ) ^ d = raw) ∧
    calculate_token_amount 1500000 6 = 3 / 2 := by
  refine ⟨fun raw d => rfl, fun raw d => ?_, by norm_num [calculate_token_amount]⟩
  rw [calculate_token_amount]
  exact div_mul_cancel₀ _ (pow_ne_zero d (by norm_num))

/-- C1 (code bug): when `db.add_transaction` loses the uniqueness race on the
signature (returns `false`), `process_swap_transaction` ignores the boolean
and still builds and sends the buy alert.  Here the store already holds a
record for `"sig1"`, the insert reports `false`, yet the alert goes out. -/
theorem insert_conflict_still_alerts :
    (process_swap_transaction envOk conflictDb swapTx).inserted = some false ∧
    (process_swap_transaction envOk conflictDb swapTx).alerts =
      [⟨"buy", "Alice", "w1", "UNKNOWN", some "X", 5, none, some "sig1"⟩] := by
  constructor <;> decide

/-- C2: a payload whose signature already has a stored record is dropped by
`process_transaction` before any processing: the store and the alert log are
returned unchanged. -/
theorem replayed_signature_is_dropped (env : Env) (w : World) (tx : Tx) (s : String)
    (hsig : tx.signature = some s)
    (hex : Database.transaction_exists w.db s = true) :
    process_transaction env w tx = w := by
  unfold process_transaction
  rw [hsig]
  by_cases h : s == ""
  · simp [h]
  · simp [h, hex]

/-- Witness for C2 at a concrete re-delivered notification. -/
theorem replayed_signature_is_dropped_witness :
    process_transaction envOk ⟨conflictDb, []⟩ swapTx = ⟨conflictDb, []⟩ :=
  replayed_signature_is_dropped envOk ⟨conflictDb, []⟩ swapTx "sig1" rfl (by decide)

/-- C9: an exception escaping `process_swap_transaction` for one batch item
is caught inside `process_transaction`: the remaining items are processed
exactly as a batch of their own, and the endpoint answers `"ok"` whatever
the batch was. -/
theorem batch_item_failure_isolated (env : Env) (w : World) (tx : Tx) (rest : List Tx)
    (hraise : (process_swap_transaction env w.db tx).raised = true) :
    helius_webhook env w (tx :: rest) =
      ((helius_webhook env (process_transaction env w tx) rest).1, "ok") ∧
    ∀ l : List Tx, (helius_webhook env w l).2 = "ok" :=
  ⟨rfl, fun _ => rfl⟩

/-- Witness for C9: the Telegram send raises on the first item (`swapTx`),
and the batch still continues into `otherTx` and answers `"ok"`. -/
theorem batch_item_failure_isolated_witness :
    helius_webhook envSendFails ⟨freshDb, []⟩ [swapTx, otherTx] =
      ((helius_webhook envSendFails
        (process_transaction envSendFails ⟨freshDb, []⟩ swapTx) [otherTx]).1, "ok") :=
  (batch_item_failure_isolated envSendFails ⟨freshDb, []⟩ swapTx [otherTx] (by decide)).1

/-- Substituting the placeholder for an empty list always yields a
non-empty list. -/
theorem if_empty_placeholder_ne_nil (l : List String) :
    (if l.isEmpty then [PLACEHOLDER_ADDRESS] else l) ≠ [] := by
  cases l <;> simp [PLACEHOLDER_ADDRESS]

/-- C6: neither `_create_webhook` nor the remove-path update ever pushes an
empty address list: with an empty input list both substitute the single
placeholder address, and in general every traced remote call carries a
non-empty address payload. -/
theorem empty_address_list_never_pushed (env : HeliusEnv) (cached : Option String)
    (id : String) (remaining addrs : List String) :
    (remove_wallet_from_webhook env (some id) []).2.2 =
      [RemoteCall.updateWebhook id [PLACEHOLDER_ADDRESS]] ∧
    (create_webhook env []).2 = [RemoteCall.createWebhook [PLACEHOLDER_ADDRESS]] ∧
    (∀ c ∈ (remove_wallet_from_webhook env cached remaining).2.2,
      RemoteCall.addresses c ≠ some []) ∧
    (∀ c ∈ (create_webhook env addrs).2, RemoteCall.addresses c ≠ some []) := by
  refine ⟨rfl, rfl, ?_, ?_⟩
  · cases cached with
    | none => intro c hc; simp [remove_wallet_from_webhook] at hc
    | some i =>
      intro c hc
      simp only [remove_wallet_from_webhook, update_webhook, List.mem_singleton] at hc
      subst hc
      simp only [RemoteCall.addresses, ne_eq, Option.some.injEq]
      exact if_empty_placeholder_ne_nil remaining
  · intro c hc
    simp only [create_webhook, List.mem_singleton] at hc
    subst hc
    simp only [RemoteCall.addresses, ne_eq, Option.some.injEq, create_webhook_addresses]
    exact if_empty_placeholder_ne_nil addrs

/-- Witness for C6 at a concrete remove with an empty remaining set. -/
theorem empty_address_list_never_pushed_witness :
    RemoteCall.addresses (RemoteCall.updateWebhook "id0" [PLACEHOLDER_ADDRESS]) ≠ some [] :=
  (empty_address_list_never_pushed ⟨[], none, true⟩ (some "id0") "id0" [] []).2.2.1
    (RemoteCall.updateWebhook "id0" [PLACEHOLDER_ADDRESS]) (List.mem_singleton.mpr rfl)

/-- C7 is false as stated: with an empty in-memory cache (post-restart), the
remove mutation does NOT rediscover the subscription id via the listing
path — `remove_wallet_from_webhook` issues no remote call at all. -/
theorem remove_skips_rediscovery_counterexample :
    ¬ (∀ (env : HeliusEnv) (remaining : List String),
        RemoteCall.listWebhooks ∈ (remove_wallet_from_webhook env none remaining).2.2) := by
  intro h
  have := h ⟨[], none, true⟩ ["a"]
  simp [remove_wallet_from_webhook] at this

/-- C7 amended: after a restart (cache empty) the add mutation does
rediscover first — its remote trace begins with the list-subscriptions call
— but the remove mutation performs no remote call at all and reports
success without rediscovering or pushing the update. -/
theorem first_mutation_rediscovery_amended (env : HeliusEnv) (wa : String)
    (all remaining : List String) :
    ((add_wallet_to_webhook env none wa all).2.2).head? = some RemoteCall.listWebhooks ∧
    (remove_wallet_from_webhook env none remaining).2.2 = [] ∧
    (remove_wallet_from_webhook env none remaining).2.1 = true := by
  refine ⟨?_, rfl, rfl⟩
  unfold add_wallet_to_webhook get_or_create_shared_webhook
  cases h : env.webhooks.find? (fun wh => (wh.webhookURL.getD "").endsWith "/helius") with
  | none =>
    cases hc : env.create_result <;>
      simp [h, hc, create_webhook, update_webhook]
  | some wh =>
    cases hid : wh.webhookID <;>
      simp [h, hid, update_webhook]

/-- When every token transfer involving the wallet carries the sentinel
mint, the buy scan over the received list finds nothing. -/
theorem find?_received_sol_none (w : String) (tts : List TokenTransfer)
    (hsol : ∀ t ∈ tts, (t.fromUserAccount = some w ∨ t.toUserAccount = some w) →
      t.mint = some SOL_MINT) :
    (tokens_received w tts).find? (fun t => !(t.mint == some SOL_MINT)) = none := by
  rw [List.find?_eq_none]
  intro t ht
  obtain ⟨hmem, hcond⟩ := List.mem_filter.mp ht
  have h2 : t.toUserAccount = some w := by
    have := (Bool.and_eq_true _ _).mp hcond |>.2
    simpa using this
  have := hsol t hmem (Or.inr h2)
  simp [this]

/-- When every token transfer involving the wallet carries the sentinel
mint, the sell scan over the sent list finds nothing. -/
theorem find?_sent_sol_none (w : String) (tts : List TokenTransfer)
    (hsol : ∀ t ∈ tts, (t.fromUserAccount = some w ∨ t.toUserAccount = some w) →
      t.mint = some SOL_MINT) :
    (tokens_sent w tts).find? (fun t => !(t.mint == some SOL_MINT)) = none := by
  rw [List.find?_eq_none]
  intro t ht
  obtain ⟨hmem, hcond⟩ := List.mem_filter.mp ht
  have h1 : t.fromUserAccount = some w := by simpa using hcond
  have := hsol t hmem (Or.inl h1)
  simp [this]

/-- C3 is false as stated: a self-transfer (`fromUserAccount` and
`toUserAccount` both the wallet) of a non-SOL mint is literally "a token
transfer to the wallet with a non-sentinel mint", yet the classifier — whose
receive case is shadowed by the send case — returns a sell, not a buy. -/
theorem classifier_token_first_counterexample :
    ¬ (∀ (w : String) (tts : List TokenTransfer) (nts : List NativeTransfer),
        (∃ t ∈ tts, t.toUserAccount = some w ∧ t.mint ≠ some SOL_MINT) →
        ∃ info, analyze_swap w tts nts = some info ∧ info.type = "buy") := by
  intro h
  obtain ⟨info, heq, htype⟩ :=
    h "w" [⟨some "X", some "w", some "w", 5⟩] []
      ⟨⟨some "X", some "w", some "w", 5⟩, List.mem_singleton.mpr rfl, rfl, by decide⟩
  have hc : analyze_swap "w" [⟨some "X", some "w", some "w", 5⟩] [] =
      some ⟨"sell", some "X", 5, none⟩ := by decide
  rw [hc] at heq
  injection heq with h'
  subst h'
  exact absurd htype (by decide)

/-- C3 amended: "received" means classified as received by the source's
partition (`toUserAccount` is the wallet and `fromUserAccount` is not).
If the first such transfer with a non-sentinel mint exists, the classifier
returns a buy of its mint and amount, regardless of native transfers;
otherwise, if the first sent transfer (`fromUserAccount` is the wallet)
with a non-sentinel mint exists, it returns a sell of that transfer. -/
theorem classifier_token_first_amended (w : String) (tts : List TokenTransfer)
    (nts : List NativeTransfer) :
    (∀ t, (tokens_received w tts).find? (fun x => !(x.mint == some SOL_MINT)) = some t →
      analyze_swap w tts nts = some ⟨"buy", t.mint, t.tokenAmount, none⟩) ∧
    (∀ t, (tokens_received w tts).find? (fun x => !(x.mint == some SOL_MINT)) = none →
      (tokens_sent w tts).find? (fun x => !(x.mint == some SOL_MINT)) = some t →
      analyze_swap w tts nts = some ⟨"sell", t.mint, t.tokenAmount, none⟩) := by
  constructor
  · intro t ht
    unfold analyze_swap
    rw [ht]
  · intro t hn hs
    unfold analyze_swap
    rw [hn, hs]

/-- Witness for C3 (amended) at the spec's own example: receiving 5 of
token X while sending native SOL classifies as a buy of X. -/
theorem classifier_token_first_amended_witness :
    analyze_swap "w" [⟨some "X", none, some "w", 5⟩] [⟨some "w", none, 100⟩] =
      some ⟨"buy", some "X", 5, none⟩ :=
  (classifier_token_first_amended "w" [⟨some "X", none, some "w", 5⟩]
    [⟨some "w", none, 100⟩]).1 ⟨some "X", none, some "w", 5⟩ (by decide)

/-- C4 is false as stated: with only sentinel-mint token transfers, net
native outflow, and a (self-)transfer whose `toUserAccount` is the wallet,
the claim predicts a buy; the classifier's `elif` partition put that
transfer in the sent list, so the received list is empty and it returns
`none`. -/
theorem native_fallback_counterexample :
    ¬ (∀ (w : String) (tts : List TokenTransfer) (nts : List NativeTransfer),
        (∀ t ∈ tts, (t.fromUserAccount = some w ∨ t.toUserAccount = some w) →
          t.mint = some SOL_MINT) →
        sol_received w nts < sol_sent w nts →
        (∃ t ∈ tts, t.toUserAccount = some w) →
        ∃ info, analyze_swap w tts nts = some info ∧ info.type = "buy") := by
  intro h
  obtain ⟨info, heq, htype⟩ :=
    h "w" [⟨some SOL_MINT, some "w", some "w", 1⟩] [⟨some "w", some "o", 5⟩]
      (by decide) (by decide)
      ⟨⟨some SOL_MINT, some "w", some "w", 1⟩, List.mem_singleton.mpr rfl, rfl⟩
  have hc : analyze_swap "w" [⟨some SOL_MINT, some "w", some "w", 1⟩]
      [⟨some "w", some "o", 5⟩] = none := by decide
  rw [hc] at heq
  exact Option.noConfusion heq

/-- C4 amended: "sent"/"received" mean the source's partition (the `elif`
gives the send case priority).  When every token transfer involving the
wallet carries the sentinel mint, the classifier decides by net native
flow: native received > native sent with a non-empty sent list gives a sell
of the first sent transfer; native sent > native received with a non-empty
received list gives a buy of the first received transfer; in every other
case — in particular when both lists are empty — it returns `none`. -/
theorem native_fallback_amended (w : String) (tts : List TokenTransfer)
    (nts : List NativeTransfer)
    (hsol : ∀ t ∈ tts, (t.fromUserAccount = some w ∨ t.toUserAccount = some w) →
      t.mint = some SOL_MINT) :
    (∀ t rest, sol_sent w nts < sol_received w nts → tokens_sent w tts = t :: rest →
      analyze_swap w tts nts = some ⟨"sell", t.mint, t.tokenAmount, none⟩) ∧
    (∀ t rest, sol_received w nts < sol_sent w nts → tokens_received w tts = t :: rest →
      analyze_swap w tts nts = some ⟨"buy", t.mint, t.tokenAmount, none⟩) ∧
    ((¬(sol_sent w nts < sol_received w nts ∧ tokens_sent w tts ≠ [])) →
     (¬(sol_received w nts < sol_sent w nts ∧ tokens_received w tts ≠ [])) →
      analyze_swap w tts nts = none) ∧
    (tokens_sent w tts = [] → tokens_received w tts = [] →
      analyze_swap w tts nts = none) := by
  have hrecv := find?_received_sol_none w tts hsol
  have hsent := find?_sent_sol_none w tts hsol
  refine ⟨?_, ?_, ?_, ?_⟩
  · intro t rest hlt hts
    rw [hts] at hsent
    simp [analyze_swap, hrecv, hsent, hts, gt_iff_lt, hlt]
  · intro t rest hlt hts
    rw [hts] at hrecv
    have hnot : ¬ (sol_sent w nts < sol_received w nts) := not_lt.mpr (le_of_lt hlt)
    simp [analyze_swap, hrecv, hsent, hts, gt_iff_lt, hlt, hnot]
  · intro h1 h2
    by_cases ha : sol_sent w nts < sol_received w nts
    · have hts : tokens_sent w tts = [] := by
        by_contra hne
        exact h1 ⟨ha, hne⟩
      have hb : ¬ (sol_received w nts < sol_sent w nts) := not_lt.mpr (le_of_lt ha)
      simp [analyze_swap, hrecv, hsent, hts, gt_iff_lt, ha, hb]
    · by_cases hb : sol_received w nts < sol_sent w nts
      · have htr : tokens_received w tts = [] := by
          by_contra hne
          exact h2 ⟨hb, hne⟩
        simp [analyze_swap, hrecv, hsent, htr, gt_iff_lt, ha, hb]
      · simp [analyze_swap, hrecv, hsent, gt_iff_lt, ha, hb]
  · intro hts htr
    by_cases ha : sol_sent w nts < sol_received w nts
    · have hb : ¬ (sol_received w nts < sol_sent w nts) := not_lt.mpr (le_of_lt ha)
      simp [analyze_swap, hrecv, hsent, hts, gt_iff_lt, ha, hb]
    · by_cases hb : sol_received w nts < sol_sent w nts
      · simp [analyze_swap, hrecv, hsent, htr, gt_iff_lt, ha, hb]
      · simp [analyze_swap, hrecv, hsent, gt_iff_lt, ha, hb]

/-- Witness for C4 (amended): only sentinel-mint token movement, net native
inflow, non-empty sent list — a sell of the first sent transfer. -/
theorem native_fallback_amended_witness :
    analyze_swap "w" [⟨some SOL_MINT, some "w", some "o", 2⟩] [⟨some "o", some "w", 7⟩] =
      some ⟨"sell", some SOL_MINT, 2, none⟩ :=
  (native_fallback_amended "w" [⟨some SOL_MINT, some "w", some "o", 2⟩]
    [⟨some "o", some "w", 7⟩] (by decide)).1
    ⟨some SOL_MINT, some "w", some "o", 2⟩ [] (by decide) (by decide)

/-- C10: whenever the classifier answers through the native-flow fallback —
which is forced once every token transfer involving the wallet carries the
sentinel mint — the resulting token address is the sentinel SOL mint
itself. -/
theorem native_fallback_token_is_sol (w : String) (tts : List TokenTransfer)
    (nts : List NativeTransfer) (info : SwapInfo)
    (hsol : ∀ t ∈ tts, (t.fromUserAccount = some w ∨ t.toUserAccount = some w) →
      t.mint = some SOL_MINT)
    (h : analyze_swap w tts nts = some info) :
    info.token_address = some SOL_MINT := by
  have hrecv := find?_received_sol_none w tts hsol
  have hsent := find?_sent_sol_none w tts hsol
  unfold analyze_swap at h
  rw [hrecv] at h
  rw [hsent] at h
  dsimp only at h
  split_ifs at h with h1 h2
  · cases hts : tokens_sent w tts with
    | nil => rw [hts] at h; exact Option.noConfusion h
    | cons t rest =>
      rw [hts] at h
      injection h with h'
      subst h'
      obtain ⟨hmem, hcond⟩ := List.mem_filter.mp
        (show t ∈ tokens_sent w tts from hts ▸ List.mem_cons_self t rest)
      have h1' : t.fromUserAccount = some w := by simpa using hcond
      simpa using hsol t hmem (Or.inl h1')
  · cases htr : tokens_received w tts with
    | nil => rw [htr] at h; exact Option.noConfusion h
    | cons t rest =>
      rw [htr] at h
      injection h with h'
      subst h'
      obtain ⟨hmem, hcond⟩ := List.mem_filter.mp
        (show t ∈ tokens_received w tts from htr ▸ List.mem_cons_self t rest)
      have h2' : t.toUserAccount = some w := by
        have := (Bool.and_eq_true _ _).mp hcond |>.2
        simpa using this
      simpa using hsol t hmem (Or.inr h2')

/-- Witness for C10: a fallback sell whose token address is the SOL mint. -/
theorem native_fallback_token_is_sol_witness :
    (SwapInfo.mk "sell" (some SOL_MINT) 2 none).token_address = some SOL_MINT :=
  native_fallback_token_is_sol "w" [⟨some SOL_MINT, some "w", some "o", 2⟩]
    [⟨some "o", some "w", 7⟩] ⟨"sell", some SOL_MINT, 2, none⟩ (by decide) (by decide)

/-- Membership is preserved by stable descending insertion. -/
theorem mem_insert_desc {a x : TokenBalance} {l : List TokenBalance} :
    a ∈ insert_desc x l ↔ a = x ∨ a ∈ l := by
  induction l with
  | nil => simp [insert_desc]
  | cons y ys ih =>
    by_cases h : y.amount ≤ x.amount
    · simp [insert_desc, h]
    · simp only [insert_desc, h, if_false, List.mem_cons, ih]
      tauto

/-- Membership is preserved by the stable descending sort. -/
theorem mem_sort_desc {a : TokenBalance} {l : List TokenBalance} :
    a ∈ sort_desc l ↔ a ∈ l := by
  induction l with
  | nil => simp [sort_desc]
  | cons x xs ih =>
    rw [sort_desc, mem_insert_desc, ih, List.mem_cons]

/-- Inserting into a list sorted by non-increasing amount keeps it sorted. -/
theorem pairwise_insert_desc {x : TokenBalance} {l : List TokenBalance}
    (h : l.Pairwise (fun a b => b.amount ≤ a.amount)) :
    (insert_desc x l).Pairwise (fun a b => b.amount ≤ a.amount) := by
  induction l with
  | nil => simp [insert_desc]
  | cons y ys ih =>
    obtain ⟨hy, hys⟩ := List.pairwise_cons.mp h
    by_cases hle : y.amount ≤ x.amount
    · rw [insert_desc, if_pos hle]
      refine List.pairwise_cons.mpr ⟨?_, h⟩
      intro b hb
      rcases List.mem_cons.mp hb with rfl | hb
      · exact hle
      · exact le_trans (hy b hb) hle
    · rw [insert_desc, if_neg hle]
      refine List.pairwise_cons.mpr ⟨?_, ih hys⟩
      intro b hb
      rcases mem_insert_desc.mp hb with rfl | hb
      · exact le_of_lt (lt_of_not_le hle)
      · exact hy b hb

/-- The stable descending sort is sorted by non-increasing amount. -/
theorem pairwise_sort_desc (l : List TokenBalance) :
    (sort_desc l).Pairwise (fun a b => b.amount ≤ a.amount) := by
  induction l with
  | nil => simp [sort_desc]
  | cons x xs ih =>
    rw [sort_desc]
    exact pairwise_insert_desc ih

/-- Insertion keeps the slice of any fixed amount intact: the inserted
element only jumps over strictly larger amounts, so it lands in front of
the equal-amount entries and behind nothing of its own amount. -/
theorem filter_insert_desc (x : TokenBalance) (l : List TokenBalance) (q : ℚ) :
    (insert_desc x l).filter (fun tb => tb.amount == q) =
      if x.amount == q then x :: l.filter (fun tb => tb.amount == q)
      else l.filter (fun tb => tb.amount == q) := by
  induction l with
  | nil => simp [insert_desc, List.filter_cons]
  | cons y ys ih =>
    by_cases hle : y.amount ≤ x.amount
    · rw [insert_desc, if_pos hle, List.filter_cons]
    · rw [insert_desc, if_neg hle, List.filter_cons, ih]
      by_cases hx : x.amount == q
      · have hxq : x.amount = q := by simpa using hx
        have hy : ¬ (y.amount == q) = true := by
          simp only [beq_iff_eq]
          intro hyq
          exact hle (le_of_eq (hyq.trans hxq.symm))
        simp [hx, hy, List.filter_cons]
      · simp [hx, List.filter_cons]

/-- The stable descending sort keeps the slice of any fixed amount exactly
as it was in the input (ties stay in arrival order). -/
theorem filter_sort_desc (l : List TokenBalance) (q : ℚ) :
    (sort_desc l).filter (fun tb => tb.amount == q) =
      l.filter (fun tb => tb.amount == q) := by
  induction l with
  | nil => rfl
  | cons x xs ih =>
    rw [sort_desc, filter_insert_desc, ih, List.filter_cons]

/-- Every holder produced by the collection phase had a successful balance
lookup: its entry was built from an `Except.ok` answer of the oracle. -/
theorem collect_holders_fetch_ok {fetch : String → Except Unit (List RawBalance)}
    {m : String} {wallets : List WalletEntry} {tb : TokenBalance}
    (h : tb ∈ collect_holders fetch m wallets) :
    fetch tb.wallet_address ≠ Except.error () := by
  unfold collect_holders at h
  rw [List.mem_filterMap] at h
  obtain ⟨r, hr, hmatch⟩ := h
  rw [List.mem_map] at hr
  obtain ⟨wlt, _, rfl⟩ := hr
  unfold check_wallet at hmatch
  cases hf : fetch wlt.address with
  | error e =>
    rw [hf] at hmatch
    dsimp only at hmatch
    exact Option.noConfusion hmatch
  | ok bals =>
    rw [hf] at hmatch
    dsimp only at hmatch
    cases hfind : bals.find? (fun b => b.mint == some m) with
    | none => rw [hfind] at hmatch; simp at hmatch
    | some b =>
      rw [hfind] at hmatch
      dsimp only [Option.map] at hmatch
      injection hmatch with h'
      subst h'
      simp [hf]

/-- C5: `get_token_holders` never returns a wallet whose balance lookup
raised, its output is sorted by human-readable amount in non-increasing
order, and entries of equal amount keep the order in which the per-wallet
tasks were started (the amount-slices of the output equal those of the
pre-sort collection, which is in input wallet order). -/
theorem find_holders_ranked (fetch : String → Except Unit (List RawBalance))
    (m : String) (wallets : List WalletEntry) :
    (∀ tb ∈ get_token_holders fetch m wallets,
      fetch tb.wallet_address ≠ Except.error ()) ∧
    (get_token_holders fetch m wallets).Pairwise (fun a b => b.amount ≤ a.amount) ∧
    (∀ q : ℚ, (get_token_holders fetch m wallets).filter (fun tb => tb.amount == q) =
      (collect_holders fetch m wallets).filter (fun tb => tb.amount == q)) :=
  ⟨fun _ htb => collect_holders_fetch_ok (mem_sort_desc.mp htb),
   pairwise_sort_desc _,
   fun q => filter_sort_desc _ q⟩

/-- Witness for C5 on `fetch0`/`wallets0`: the erroring wallet `"w2"` is
absent (the entry for `"w3"` came from a successful lookup) and the ranked
output is sorted by non-increasing amount. -/
theorem find_holders_ranked_witness :
    fetch0 "w3" ≠ Except.error () ∧
    (get_token_holders fetch0 "M" wallets0).Pairwise
      (fun a b => b.amount ≤ a.amount) := by
  have hlist : get_token_holders fetch0 "M" wallets0 =
      [⟨"w3", "n3", "M", 7, 0⟩, ⟨"w1", "n1", "M", 5, 0⟩] := by
    norm_num [get_token_holders, collect_holders, check_wallet, fetch0, wallets0,
      sort_desc, insert_desc]
  have hmem : (⟨"w3", "n3", "M", 7, 0⟩ : TokenBalance) ∈
      get_token_holders fetch0 "M" wallets0 := by
    rw [hlist]
    exact List.mem_cons_self _ _
  exact ⟨(find_holders_ranked fetch0 "M" wallets0).1 _ hmem,
    (find_holders_ranked fetch0 "M" wallets0).2.1⟩

end WalletTracker
